import Mathlib

/-!
Verification development for the socket-pool worker
(`projects/base/ovsocket/socket_pool/socket_pool_worker.cpp`).

The worker is shallowly embedded: the socket collaborator is external, so a
`Socket` record carries the answers its accessors and oracles (dispatch
results, `getsockopt`, backend deregistration outcome) would give, and every
call the worker makes into the socket or the backend is recorded as an
`Action` in a trace.  Machine maps (`std::map`) become association lists.
-/

namespace OvSocket

/-- Socket states, as observed and driven by the worker
(`Connecting → {Connected, Error, Disconnected, Closed}`). -/
inductive SocketState where
  | Created
  | Connecting
  | Connected
  | Disconnected
  | Error
  | Closed
deriving DecidableEq, Repr

/-- `Socket::DispatchResult` (tri-state result of `DispatchEvents`). -/
inductive DispatchResult where
  | Dispatched
  | PartialDispatched
  | Error
deriving DecidableEq, Repr

/-- The error payload passed to `OnConnectedEvent` on a connect failure. -/
inductive ConnErr where
  | timedOut
  | soError (code : Int)
  | getsockoptFailed
deriving DecidableEq, Repr

/-- A call the worker makes into the socket collaborator or the backend;
traces of these are what the theorems below constrain. -/
inductive Action where
  | onConnected (err : Option ConnErr)
  | onDataAvailable
  | setFirstEpollEventReceived
  | setEndOfStream
  | closeWithState (st : SocketState)
  | closeInternal
  | setState (st : SocketState)
  | dispatchEvents
  | enqueueDispatchLater
  | deleteFromEpoll
deriving DecidableEq, Repr

/-- The external socket collaborator, reduced to the answers the worker can
observe: accessor results plus scripted oracle outcomes (`dispatchScript` for
successive `DispatchEvents` calls, `sockOptError` for
`GetSockOpt(SO_ERROR)` where `none` means the call itself failed,
`deleteResult` for the backend deregistration where `none` means success and
`some e` means failure with error code `e`). -/
structure Socket where
  nativeHandle : Nat
  state : SocketState
  closable : Bool
  needFirstEpollEvent : Bool
  blocking : Bool
  sockOptError : Option Int
  dispatchScript : List DispatchResult
  hasCommand : Bool
  hasExpiredCommand : Bool
  endOfStream : Bool
  deleteResult : Option Nat
deriving DecidableEq, Repr

/-- Canonical epoll event flags after conversion. -/
structure EvFlags where
  epollin : Bool
  epollout : Bool
  epollerr : Bool
  epollhup : Bool
  epollrdhup : Bool
deriving DecidableEq, Repr

/-- GC-candidate set: `std::map<int, std::shared_ptr<Socket>>` as an
association list keyed by native handle. -/
abbrev GcList := List (Nat × Socket)

/-- `_gc_candidates[handle] = socket` (`std::map::operator[]` assignment:
update in place when the key exists, insert otherwise). -/
def gcInsert : GcList → Nat → Socket → GcList
  | [], h, s => [(h, s)]
  | (k, v) :: rest, h, s =>
    if k = h then (k, s) :: rest else (k, v) :: gcInsert rest h s

/-- `_gc_candidates.erase(handle)`. -/
def gcErase : GcList → Nat → GcList
  | [], _ => []
  | (k, v) :: rest, h =>
    if k = h then gcErase rest h else (k, v) :: gcErase rest h

/-- Whether the GC-candidate set holds an entry for `h`. -/
def gcContains (gc : GcList) (h : Nat) : Bool :=
  gc.any (fun p => p.1 = h)

/-- First entry for key `h`, if any. -/
def gcFind : GcList → Nat → Option Socket
  | [], _ => none
  | (k, v) :: rest, h => if k = h then some v else gcFind rest h

/-- Connect resolution (`ThreadProc`, writable + `Connecting`): resolve the
pending connect via `GetSockOpt(SO_ERROR)`; zero means connected, non-zero a
connect failure, and an unreadable option is itself a connect failure.
Returns `(need_to_close, actions)`. -/
def connectResolution (s : Socket) (ev : EvFlags) : Bool × List Action :=
  if ev.epollout && s.state == SocketState.Connecting then
    match s.sockOptError with
    | some e =>
      if e == 0 then (false, [Action.onConnected none])
      else (true, [Action.onConnected (some (ConnErr.soError e))])
    | none => (true, [Action.onConnected (some ConnErr.getsockoptFailed)])
  else (false, [])

/-- The next scripted result of a `DispatchEvents` call on `s`. -/
def dispatchHead (s : Socket) : DispatchResult :=
  s.dispatchScript.headD DispatchResult.Dispatched

/-- The writable-event dispatch block (`ThreadProc`): when writable and not
simultaneously hung up, call `DispatchEvents`; `Dispatched` needs nothing,
`PartialDispatched` adds the socket to the GC candidates, `Error` marks the
socket for closure with `Error` state.  Returns
`(gc, socket, need_to_close, new_state, actions)`. -/
def dispatchOnWritable (gc : GcList) (s : Socket) (ev : EvFlags) :
    GcList × Socket × Bool × SocketState × List Action :=
  if ev.epollout then
    if ev.epollhup then
      (gc, s, false, SocketState.Closed, [])
    else
      let r := dispatchHead s
      let s' := { s with dispatchScript := s.dispatchScript.tail }
      match r with
      | DispatchResult.Dispatched =>
        (gc, s', false, SocketState.Closed, [Action.dispatchEvents])
      | DispatchResult.PartialDispatched =>
        (gcInsert gc s'.nativeHandle s', s', false, SocketState.Closed,
          [Action.dispatchEvents])
      | DispatchResult.Error =>
        (gc, s', true, SocketState.Error, [Action.dispatchEvents])
  else (gc, s, false, SocketState.Closed, [])

/-- Per-event handling for non-blocking sockets when connect resolution did
not already mark the socket for closure: writable dispatch, readable
notification, error flag, then hangup/peer-hangup. -/
def nonBlockingHandling (gc : GcList) (s : Socket) (ev : EvFlags) :
    GcList × Socket × Bool × SocketState × List Action :=
  let d := dispatchOnWritable gc s ev
  let gc1 := d.1
  let s1 := d.2.1
  let a1 := d.2.2.2.2
  let a2 := if ev.epollin then [Action.onDataAvailable] else []
  let p2 :=
    if ev.epollerr then (true, SocketState.Error) else (d.2.2.1, d.2.2.2.1)
  if (ev.epollhup || ev.epollrdhup) && s1.state ≠ SocketState.Error then
    (gc1, { s1 with endOfStream := true }, true, SocketState.Disconnected,
      a1 ++ a2 ++ [Action.setEndOfStream])
  else
    (gc1, s1, p2.1, p2.2, a1 ++ a2)

/-- Closure handling at the end of event processing: when marked for
closure, erase the handle from the GC candidates, close with the computed
state if still closable, and enqueue for one final deferred dispatch. -/
def closeHandling (gc : GcList) (dq : List Socket) (s : Socket)
    (ntc : Bool) (ns : SocketState) : GcList × List Socket × List Action :=
  if ntc then
    (gcErase gc s.nativeHandle, dq ++ [s],
      (if s.closable then [Action.closeWithState ns] else []) ++
        [Action.enqueueDispatchLater])
  else (gc, dq, [])

/-- Event handling from the `need_to_close`/`new_state` initialisation
onwards (`ThreadProc`): connect resolution, the blocking-mode early return,
non-blocking handling, then closure handling.  Returns the updated GC set,
deferred-dispatch list, the socket as left by the handling, and the trace. -/
def processEventBody (gc : GcList) (dq : List Socket) (s : Socket)
    (ev : EvFlags) : GcList × List Socket × Option Socket × List Action :=
  let c := connectResolution s ev
  if s.blocking then (gc, dq, some s, c.2)
  else if c.1 then
    let cl := closeHandling gc dq s true SocketState.Closed
    (cl.1, cl.2.1, some s, c.2 ++ cl.2.2)
  else
    let n := nonBlockingHandling gc s ev
    let cl := closeHandling n.1 dq n.2.1 n.2.2.1 n.2.2.2.1
    (cl.1, cl.2.1, some n.2.1, c.2 ++ n.2.2.2.2 ++ cl.2.2)

/-- Processing of one epoll event (`ThreadProc` loop body): a null payload
is skipped; a non-closable socket is skipped; a socket still waiting for its
first epoll event swallows a writable event (marking it received), while any
other event falls through (after an assertion) to the normal handling. -/
def processEvent (gc : GcList) (dq : List Socket) (payload : Option Socket)
    (ev : EvFlags) : GcList × List Socket × Option Socket × List Action :=
  match payload with
  | none => (gc, dq, none, [])
  | some s =>
    if s.closable = false then (gc, dq, some s, [])
    else if s.needFirstEpollEvent then
      if ev.epollout then
        (gc, dq, some { s with needFirstEpollEvent := false },
          [Action.setFirstEpollEventReceived])
      else
        processEventBody gc dq s ev
    else
      processEventBody gc dq s ev

/-- One step of the deferred-dispatch drain (`ThreadProc` after the event
batch): retry `DispatchEvents`; `PartialDispatched` adds to the GC
candidates, `Error` closes with `Error` state. -/
def dispatchDeferredOne (gc : GcList) (s : Socket) : GcList × List Action :=
  let r := dispatchHead s
  let s' := { s with dispatchScript := s.dispatchScript.tail }
  match r with
  | DispatchResult.Dispatched => (gc, [Action.dispatchEvents])
  | DispatchResult.PartialDispatched =>
    (gcInsert gc s'.nativeHandle s', [Action.dispatchEvents])
  | DispatchResult.Error =>
    (gc, [Action.dispatchEvents, Action.closeWithState SocketState.Error])

/-- The handle map `_socket_map : std::map<int, std::shared_ptr<Socket>>`
as an association list; a `none` value is a null `shared_ptr` (as produced
by `operator[]` on an absent key). -/
abbrev SockMap := List (Nat × Option Socket)

/-- `_socket_map[h] = v` (update in place or insert). -/
def mapInsert : SockMap → Nat → Option Socket → SockMap
  | [], h, v => [(h, v)]
  | (k, w) :: rest, h, v =>
    if k = h then (k, v) :: rest else (k, w) :: mapInsert rest h v

/-- `_socket_map.erase(h)`. -/
def mapErase : SockMap → Nat → SockMap
  | [], _ => []
  | (k, v) :: rest, h =>
    if k = h then mapErase rest h else (k, v) :: mapErase rest h

/-- First value stored under key `h`, if the key is present. -/
def mapFind : SockMap → Nat → Option (Option Socket)
  | [], _ => none
  | (k, v) :: rest, h => if k = h then some v else mapFind rest h

/-- Whether the handle map has an entry (even a null one) for `h`. -/
def mapContains (m : SockMap) (h : Nat) : Bool :=
  m.any (fun p => p.1 = h)

/-- `_socket_map[h]` in rvalue position (`ConvertSrtEventToEpollEvent`):
`std::map::operator[]` returns the stored value when the key is present and
otherwise inserts a default-constructed (null) `shared_ptr` and returns it.
Returns the looked-up payload and the possibly-grown map. -/
def mapBracket : SockMap → Nat → Option Socket × SockMap
  | [], h => (none, [(h, none)])
  | (k, v) :: rest, h =>
    if k = h then (v, (k, v) :: rest)
    else
      let r := mapBracket rest h
      (r.1, (k, v) :: r.2)

/-- `InvalidSocket` sentinel for the worker's native epoll handle. -/
def InvalidSocket : Int := -1

/-- `EINTR` errno value. -/
def EINTR : Nat := 4

/-- `EBADF` errno value. -/
def EBADF : Nat := 9

/-- The per-worker state touched by the modelled operations: the native
epoll handle, the handle map, the three pending queues, the deferred
dispatch list, the connection-timeout queue and the GC-candidate set. -/
structure Worker where
  nativeHandle : Int
  socket_map : SockMap
  sockets_to_insert : List Socket
  sockets_to_delete : List Socket
  sockets_to_dispatch : List Socket
  connection_timed_out_queue : List Socket
  gc_candidates : GcList
  socket_count : Nat
deriving DecidableEq, Repr

/-- `SocketPoolWorker::MergeSocketList`: drain the insert queue into the
handle map, then drain the delete queue erasing handles from it. -/
def MergeSocketList (w : Worker) : Worker :=
  let m1 := w.sockets_to_insert.foldl
    (fun m s => mapInsert m s.nativeHandle (some s)) w.socket_map
  let m2 := w.sockets_to_delete.foldl
    (fun m s => mapErase m s.nativeHandle) m1
  { w with socket_map := m2, sockets_to_insert := [], sockets_to_delete := [] }

/-- `SocketPoolWorker::AddToEpoll`: `regOk` is the outcome of the native
registration (`epoll_ctl(EPOLL_CTL_ADD)` / `srt_epoll_add_usock`).  On
success the socket is enqueued to the insert queue and `true` is returned;
on failure nothing is enqueued and `false` is returned.  The handle map is
never touched here. -/
def AddToEpoll (regOk : Bool) (w : Worker) (s : Socket) : Bool × Worker :=
  if regOk then
    (true, { w with sockets_to_insert := w.sockets_to_insert ++ [s] })
  else (false, w)

/-- `SocketPoolWorker::DeleteFromEpoll`: fails when the worker is not
initialized; otherwise the native deregistration outcome is the socket's
`deleteResult` oracle (`none` = success).  On success the socket is
enqueued to the delete queue; on failure nothing is enqueued and an error
is logged unless the code is `EBADF` (benign: closed elsewhere).  Returns
`(success, worker, errorLogged)`. -/
def DeleteFromEpoll (w : Worker) (s : Socket) : Bool × Worker × Bool :=
  if w.nativeHandle = InvalidSocket then (false, w, true)
  else
    match s.deleteResult with
    | none =>
      (true, { w with sockets_to_delete := w.sockets_to_delete ++ [s] }, false)
    | some e => (false, w, decide (e ≠ EBADF))

/-- Per-socket body of `CallbackTimedOutConnections`: a socket still in the
`Connecting` state gets `OnConnectedEvent` with a timeout error; any other
state gets no callback. -/
def timedOutCallbackOne (s : Socket) : List Action :=
  if s.state = SocketState.Connecting then
    [Action.onConnected (some ConnErr.timedOut)]
  else []

/-- `SocketPoolWorker::CallbackTimedOutConnections`: drain the
connection-timeout queue and run the per-socket body on each drained
entry.  Returns the worker (queue emptied) and the per-entry traces. -/
def CallbackTimedOutConnections (w : Worker) :
    Worker × List (Socket × List Action) :=
  ({ w with connection_timed_out_queue := [] },
    w.connection_timed_out_queue.map (fun s => (s, timedOutCallbackOne s)))

/-- The `GarbageCollection` sweep over the GC-candidate list: an expired
socket is force-closed (`CloseInternal`), given one final `DispatchEvents`,
deregistered (`DeleteFromEpoll`, which enqueues to the delete queue when
the backend deregistration succeeds) and dropped from the set; a socket
with no pending command is dropped without closing; any other socket is
kept.  Returns `(remaining candidates, delete-queue additions, trace)`. -/
def gcLoop : GcList → GcList × List Socket × List (Nat × Action)
  | [] => ([], [], [])
  | (h, s) :: rest =>
    let r := gcLoop rest
    if s.hasExpiredCommand then
      (r.1,
        (if s.deleteResult = none then [s] else []) ++ r.2.1,
        (h, Action.closeInternal) :: (h, Action.dispatchEvents) ::
          (h, Action.deleteFromEpoll) :: r.2.2)
    else if s.hasCommand = false then
      (r.1, r.2.1, r.2.2)
    else
      ((h, s) :: r.1, r.2.1, r.2.2)

/-- `SocketPoolWorker::GarbageCollection` at the worker level. -/
def GarbageCollection (w : Worker) : Worker × List (Nat × Action) :=
  let r := gcLoop w.gc_candidates
  ({ w with gc_candidates := r.1,
            sockets_to_delete := w.sockets_to_delete ++ r.2.1 }, r.2.2)

/-- The clean-up loop at the end of `ThreadProc`: every socket still in the
handle map that is closable gets `CloseInternal`, `SetState(Closed)` and
one final `DispatchEvents`.  (Entries are tagged with their map key.) -/
def cleanupTrace : SockMap → List (Nat × Action)
  | [] => []
  | (k, v) :: rest =>
    (match v with
     | some s =>
       if s.closable then
         [(k, Action.closeInternal), (k, Action.setState SocketState.Closed),
           (k, Action.dispatchEvents)]
       else []
     | none => []) ++ cleanupTrace rest

/-- `SocketPoolWorker::Uninitialize`: fails without effect when the worker
is not initialized; otherwise stops and joins the worker thread (whose exit
path runs the clean-up loop over the handle map), clears the handle map,
all queues and the GC-candidate set, and releases the epoll handle. -/
def UninitializeWorker (w : Worker) : Bool × Worker × List (Nat × Action) :=
  if w.nativeHandle = InvalidSocket then (false, w, [])
  else
    (true,
      { w with nativeHandle := InvalidSocket, socket_map := [],
               sockets_to_insert := [], sockets_to_delete := [],
               sockets_to_dispatch := [], connection_timed_out_queue := [],
               gc_candidates := [], socket_count := 0 },
      cleanupTrace w.socket_map)

/-- Outcome of the native `epoll_wait` call: a non-negative event count, or
failure with an errno. -/
inductive WaitOutcome where
  | count (n : Nat)
  | fail (errno : Nat)
deriving DecidableEq, Repr

/-- `SocketPoolWorker::EpollWait` for the Tcp/Udp backend: returns `-1`
when not initialized; a zero count is a timeout and a positive count a
successful poll (no error either way); a failing wait with `EINTR` is
converted to a zero-count iteration with no error, while any other errno
degrades to a reported failure with `_last_epoll_event_count = 0`.
Returns `(returned count, error reported)`. -/
def EpollWaitTcp (initialized : Bool) (o : WaitOutcome) : Int × Bool :=
  if initialized = false then (-1, true)
  else
    match o with
    | WaitOutcome.count n => (Int.ofNat n, false)
    | WaitOutcome.fail e =>
      if e = EINTR then ((0 : Int), false) else ((0 : Int), true)

/-- SRT socket status as returned by `srt_getsockstate`. -/
inductive SrtStatus where
  | listening
  | nonexist
  | broken
  | closed
  | connected
  | other
deriving DecidableEq, Repr

/-- One record from `srt_epoll_uwait`. -/
structure SrtEvent where
  fd : Nat
  srtIn : Bool
  srtOut : Bool
  srtErr : Bool
deriving DecidableEq, Repr

/-- `SocketPoolWorker::ConvertSrtEventToEpollEvent`: resolve the payload
through `_socket_map[fd]` (inserting a null entry when absent), map the SRT
flags to epoll flags, and map the SRT status to a hangup flag (non-existent,
broken and closed states all hang up; listening and connected add nothing).
Returns `((payload, flags), map)`. -/
def ConvertSrtEventToEpollEvent (m : SockMap) (e : SrtEvent)
    (status : SrtStatus) : (Option Socket × EvFlags) × SockMap :=
  let r := mapBracket m e.fd
  let hup :=
    match status with
    | SrtStatus.nonexist => true
    | SrtStatus.broken => true
    | SrtStatus.closed => true
    | _ => false
  ((r.1, ⟨e.srtIn, e.srtOut, e.srtErr, hup, false⟩), r.2)

/-- Whether no socket in the delete queue shares native handle `h`. -/
def noDeleteFor (w : Worker) (h : Nat) : Bool :=
  w.sockets_to_delete.all (fun t => t.nativeHandle ≠ h)

/-- Whether the keys of the handle map are pairwise distinct. -/
def mapKeysNodup : SockMap → Bool
  | [] => true
  | (k, _) :: rest =>
    (rest.all (fun p => p.1 ≠ k)) && mapKeysNodup rest

/-- Whether the keys of the GC-candidate list are pairwise distinct. -/
def gcKeysNodup : GcList → Bool
  | [] => true
  | (k, _) :: rest =>
    (rest.all (fun p => p.1 ≠ k)) && gcKeysNodup rest

/-- Number of occurrences of action `a` tagged with handle `h` in a trace. -/
def traceCount (tr : List (Nat × Action)) (h : Nat) (a : Action) : Nat :=
  (tr.filter (fun p => p.1 = h ∧ p.2 = a)).length

/-! ## Helper lemmas -/

theorem gcContains_gcInsert_self (gc : GcList) (h : Nat) (s : Socket) :
    gcContains (gcInsert gc h s) h = true := by
  induction gc with
  | nil => simp [gcInsert, gcContains]
  | cons p rest ih =>
    obtain ⟨k, v⟩ := p
    by_cases hk : k = h
    · simp [gcInsert, hk, gcContains]
    · simp only [gcInsert, if_neg hk, gcContains, List.any_cons]
      simp only [gcContains] at ih
      simp [ih]

theorem gcContains_gcErase_self (gc : GcList) (h : Nat) :
    gcContains (gcErase gc h) h = false := by
  induction gc with
  | nil => simp [gcErase, gcContains]
  | cons p rest ih =>
    obtain ⟨k, v⟩ := p
    by_cases hk : k = h
    · simp [gcErase, hk, ih]
    · simp only [gcErase, if_neg hk, gcContains, List.any_cons]
      simp only [gcContains] at ih
      simp [ih, hk]

theorem mapFind_mapInsert_self (m : SockMap) (h : Nat) (v : Option Socket) :
    mapFind (mapInsert m h v) h = some v := by
  induction m with
  | nil => simp [mapInsert, mapFind]
  | cons p rest ih =>
    obtain ⟨k, w⟩ := p
    by_cases hk : k = h
    · simp [mapInsert, hk, mapFind]
    · simp [mapInsert, hk, mapFind, ih]

theorem mapFind_mapErase_ne (m : SockMap) (k h : Nat) (hne : k ≠ h) :
    mapFind (mapErase m k) h = mapFind m h := by
  induction m with
  | nil => rfl
  | cons p rest ih =>
    obtain ⟨k1, v1⟩ := p
    by_cases h1 : k1 = k
    · subst h1
      have hne2 : k1 ≠ h := hne
      simp [mapErase, mapFind, hne2, ih]
    · by_cases h2 : k1 = h
      · subst h2
        simp [mapErase, h1, mapFind]
      · simp [mapErase, h1, mapFind, h2, ih]

theorem mapFind_foldl_erase (dels : List Socket) (m : SockMap) (h : Nat)
    (hall : dels.all (fun t => t.nativeHandle ≠ h) = true) :
    mapFind (dels.foldl (fun acc s => mapErase acc s.nativeHandle) m) h =
      mapFind m h := by
  induction dels generalizing m with
  | nil => rfl
  | cons d rest ih =>
    simp only [List.all_cons, Bool.and_eq_true] at hall
    have hd : d.nativeHandle ≠ h := by
      simpa using hall.1
    simp only [List.foldl_cons]
    rw [ih _ hall.2, mapFind_mapErase_ne _ _ _ hd]

/-! ## Concrete instances used by witnesses -/

/-- A concrete socket whose backend deregistration fails with `EBADF`. -/
def sEx : Socket :=
  { nativeHandle := 5, state := SocketState.Connected, closable := true,
    needFirstEpollEvent := false, blocking := false, sockOptError := some 0,
    dispatchScript := [], hasCommand := false, hasExpiredCommand := false,
    endOfStream := false, deleteResult := some EBADF }

/-- A concrete initialized worker with an empty handle map. -/
def wEx : Worker :=
  { nativeHandle := 3, socket_map := [], sockets_to_insert := [],
    sockets_to_delete := [], sockets_to_dispatch := [],
    connection_timed_out_queue := [], gc_candidates := [], socket_count := 0 }

/-! ## Claim theorems -/

/-- Claim C8: `EpollWait` treats a zero event count as a timeout (returns 0
with no error reported), and treats an `EINTR`-interrupted wait exactly like
a zero-count wait: it returns 0 and records no error. -/
theorem epoll_wait_zero_and_eintr_are_timeouts :
    EpollWaitTcp true (WaitOutcome.count 0) = (0, false) ∧
    EpollWaitTcp true (WaitOutcome.fail EINTR) =
      EpollWaitTcp true (WaitOutcome.count 0) := by
  exact ⟨rfl, rfl⟩

/-- Claim C9: when the backend deregistration fails with `EBADF`,
`DeleteFromEpoll` returns false, enqueues nothing, logs nothing (log
suppression only), and leaves the worker — including the handle map —
unchanged; the delete queue is extended only when the deregistration
succeeds. -/
theorem delete_from_epoll_ebadf_is_benign (w : Worker) (s : Socket) (e : Nat)
    (hinit : w.nativeHandle ≠ InvalidSocket) :
    (s.deleteResult = some EBADF →
      DeleteFromEpoll w s = (false, w, false)) ∧
    (s.deleteResult = none →
      DeleteFromEpoll w s =
        (true, { w with sockets_to_delete := w.sockets_to_delete ++ [s] },
          false) ∧
      ((DeleteFromEpoll w s).2.1).socket_map = w.socket_map) ∧
    (s.deleteResult = some e →
      (DeleteFromEpoll w s).1 = false ∧ (DeleteFromEpoll w s).2.1 = w) := by
  refine ⟨fun hbad => ?_, fun hok => ?_, fun hfail => ?_⟩
  · simp [DeleteFromEpoll, hinit, hbad, EBADF]
  · simp [DeleteFromEpoll, hinit, hok]
  · simp [DeleteFromEpoll, hinit, hfail]

/-- Witness for `delete_from_epoll_ebadf_is_benign` at a concrete worker
and socket. -/
theorem delete_from_epoll_ebadf_is_benign_witness :
    wEx.nativeHandle ≠ InvalidSocket ∧
    ((sEx.deleteResult = some EBADF →
      DeleteFromEpoll wEx sEx = (false, wEx, false)) ∧
    (sEx.deleteResult = none →
      DeleteFromEpoll wEx sEx =
        (true,
          { wEx with sockets_to_delete := wEx.sockets_to_delete ++ [sEx] },
          false) ∧
      ((DeleteFromEpoll wEx sEx).2.1).socket_map = wEx.socket_map) ∧
    (sEx.deleteResult = some EBADF →
      (DeleteFromEpoll wEx sEx).1 = false ∧
      (DeleteFromEpoll wEx sEx).2.1 = wEx)) :=
  ⟨by decide, delete_from_epoll_ebadf_is_benign wEx sEx EBADF (by decide)⟩

theorem mapBracket_absent (m : SockMap) (h : Nat)
    (habs : mapContains m h = false) :
    mapBracket m h = (none, m ++ [(h, none)]) := by
  induction m with
  | nil => rfl
  | cons p rest ih =>
    obtain ⟨k, v⟩ := p
    simp only [mapContains, List.any_cons, Bool.or_eq_false_iff,
      decide_eq_false_iff_not] at habs
    simp only [mapContains] at ih
    simp [mapBracket, habs.1, ih habs.2]

/-- Claim C7: `AddToEpoll` never touches the handle map: on backend
registration success it returns true and only appends the socket to the
insert queue, on failure it returns false and changes nothing; the socket
reaches the handle map only through the next `MergeSocketList`. -/
theorem add_to_epoll_defers_map_update (w : Worker) (s : Socket)
    (hdel : noDeleteFor w s.nativeHandle = true) :
    AddToEpoll true w s =
      (true, { w with sockets_to_insert := w.sockets_to_insert ++ [s] }) ∧
    ((AddToEpoll true w s).2).socket_map = w.socket_map ∧
    AddToEpoll false w s = (false, w) ∧
    mapFind (MergeSocketList ((AddToEpoll true w s).2)).socket_map
      s.nativeHandle = some (some s) := by
  refine ⟨rfl, rfl, rfl, ?_⟩
  simp only [AddToEpoll, if_pos trivial, MergeSocketList, List.foldl_append,
    List.foldl_cons, List.foldl_nil]
  rw [mapFind_foldl_erase _ _ _ hdel, mapFind_mapInsert_self]

/-- Witness for `add_to_epoll_defers_map_update` at a concrete worker and
socket. -/
theorem add_to_epoll_defers_map_update_witness :
    noDeleteFor wEx sEx.nativeHandle = true ∧
    (AddToEpoll true wEx sEx =
      (true,
        { wEx with sockets_to_insert := wEx.sockets_to_insert ++ [sEx] }) ∧
    ((AddToEpoll true wEx sEx).2).socket_map = wEx.socket_map ∧
    AddToEpoll false wEx sEx = (false, wEx) ∧
    mapFind (MergeSocketList ((AddToEpoll true wEx sEx).2)).socket_map
      sEx.nativeHandle = some (some sEx)) :=
  ⟨by decide, add_to_epoll_defers_map_update wEx sEx (by decide)⟩

/-- Claim C3: processing the connection-timeout queue drains it; every
drained entry still in the `Connecting` state gets exactly one
`OnConnectedEvent` with a timeout error, and every entry in any other
state gets no callback at all. -/
theorem timed_out_connection_callbacks (w : Worker) (s : Socket)
    (hmem : s ∈ w.connection_timed_out_queue) :
    ((CallbackTimedOutConnections w).1).connection_timed_out_queue = [] ∧
    (s.state = SocketState.Connecting →
      (s, [Action.onConnected (some ConnErr.timedOut)]) ∈
        (CallbackTimedOutConnections w).2) ∧
    (s.state ≠ SocketState.Connecting →
      (s, ([] : List Action)) ∈ (CallbackTimedOutConnections w).2) := by
  refine ⟨rfl, fun hc => ?_, fun hc => ?_⟩
  · simp only [CallbackTimedOutConnections]
    exact List.mem_map.mpr ⟨s, hmem, by simp [timedOutCallbackOne, hc]⟩
  · simp only [CallbackTimedOutConnections]
    exact List.mem_map.mpr ⟨s, hmem, by simp [timedOutCallbackOne, hc]⟩

/-- A concrete socket still in the `Connecting` state. -/
def sConn : Socket :=
  { nativeHandle := 8, state := SocketState.Connecting, closable := true,
    needFirstEpollEvent := false, blocking := false, sockOptError := some 0,
    dispatchScript := [], hasCommand := false, hasExpiredCommand := false,
    endOfStream := false, deleteResult := none }

/-- A concrete worker whose connection-timeout queue holds `sConn`. -/
def wConn : Worker :=
  { nativeHandle := 3, socket_map := [], sockets_to_insert := [],
    sockets_to_delete := [], sockets_to_dispatch := [],
    connection_timed_out_queue := [sConn], gc_candidates := [],
    socket_count := 0 }

/-- Witness for `timed_out_connection_callbacks` at a concrete worker. -/
theorem timed_out_connection_callbacks_witness :
    sConn ∈ wConn.connection_timed_out_queue ∧
    (((CallbackTimedOutConnections wConn).1).connection_timed_out_queue
        = [] ∧
    (sConn.state = SocketState.Connecting →
      (sConn, [Action.onConnected (some ConnErr.timedOut)]) ∈
        (CallbackTimedOutConnections wConn).2) ∧
    (sConn.state ≠ SocketState.Connecting →
      (sConn, ([] : List Action)) ∈ (CallbackTimedOutConnections wConn).2)) :=
  ⟨by decide, timed_out_connection_callbacks wConn sConn (by decide)⟩

/-- Claim C10: an SRT event whose native handle is absent from the handle
map is converted to an event with a null payload, inserting a null-valued
entry for that handle into the map as a side effect of `operator[]`, and
the event loop skips a null-payload event without any further action. -/
theorem srt_absent_handle_null_payload (m : SockMap) (e : SrtEvent)
    (st : SrtStatus) (gc : GcList) (dq : List Socket) (ev : EvFlags)
    (habs : mapContains m e.fd = false) :
    (ConvertSrtEventToEpollEvent m e st).1.1 = none ∧
    (ConvertSrtEventToEpollEvent m e st).2 = m ++ [(e.fd, none)] ∧
    processEvent gc dq none ev = (gc, dq, none, []) := by
  have hb := mapBracket_absent m e.fd habs
  exact ⟨by simp [ConvertSrtEventToEpollEvent, hb],
    by simp [ConvertSrtEventToEpollEvent, hb], rfl⟩

/-- A concrete SRT event record. -/
def srtEx : SrtEvent := ⟨11, true, false, false⟩

/-- Witness for `srt_absent_handle_null_payload` at a concrete map, event
and status. -/
theorem srt_absent_handle_null_payload_witness :
    mapContains [] srtEx.fd = false ∧
    ((ConvertSrtEventToEpollEvent [] srtEx SrtStatus.broken).1.1 = none ∧
    (ConvertSrtEventToEpollEvent [] srtEx SrtStatus.broken).2 =
      [] ++ [(srtEx.fd, none)] ∧
    processEvent [] [] none ⟨true, false, false, true, false⟩ =
      ([], [], none, [])) :=
  ⟨by decide,
    srt_absent_handle_null_payload [] srtEx SrtStatus.broken [] []
      ⟨true, false, false, true, false⟩ (by decide)⟩

theorem setFirst_not_in_connectResolution (s : Socket) (ev : EvFlags) :
    Action.setFirstEpollEventReceived ∉ (connectResolution s ev).2 := by
  unfold connectResolution
  split
  · rcases s.sockOptError with _ | e
    · simp
    · by_cases he : e == 0 <;> simp [he]
  · simp

theorem setFirst_not_in_dispatchOnWritable (gc : GcList) (s : Socket)
    (ev : EvFlags) :
    Action.setFirstEpollEventReceived ∉
      (dispatchOnWritable gc s ev).2.2.2.2 := by
  unfold dispatchOnWritable
  split
  · split
    · simp
    · rcases hr : dispatchHead s <;>
        simp [hr]
  · simp

theorem setFirst_not_in_nonBlockingHandling (gc : GcList) (s : Socket)
    (ev : EvFlags) :
    Action.setFirstEpollEventReceived ∉
      (nonBlockingHandling gc s ev).2.2.2.2 := by
  have h1 := setFirst_not_in_dispatchOnWritable gc s ev
  unfold nonBlockingHandling
  by_cases hin : ev.epollin <;>
    simp only [hin, if_true, if_false] <;> split <;>
      simp_all [List.mem_append]

theorem setFirst_not_in_closeHandling (gc : GcList) (dq : List Socket)
    (s : Socket) (ntc : Bool) (ns : SocketState) :
    Action.setFirstEpollEventReceived ∉ (closeHandling gc dq s ntc ns).2.2 := by
  unfold closeHandling
  split
  · split <;> simp
  · simp

theorem setFirst_not_in_processEventBody (gc : GcList) (dq : List Socket)
    (s : Socket) (ev : EvFlags) :
    Action.setFirstEpollEventReceived ∉
      (processEventBody gc dq s ev).2.2.2 := by
  have hc := setFirst_not_in_connectResolution s ev
  have hn := setFirst_not_in_nonBlockingHandling gc s ev
  have hcl1 := setFirst_not_in_closeHandling gc dq s true SocketState.Closed
  have hcl2 := setFirst_not_in_closeHandling (nonBlockingHandling gc s ev).1
    dq (nonBlockingHandling gc s ev).2.1 (nonBlockingHandling gc s ev).2.2.1
    (nonBlockingHandling gc s ev).2.2.2.1
  by_cases hb : s.blocking = true
  · simp_all [processEventBody, List.mem_append]
  · by_cases hres : (connectResolution s ev).1 = true
    · simp_all [processEventBody, List.mem_append]
    · simp_all [processEventBody, List.mem_append]

/-- Claim C2: a closable socket still waiting for its first epoll event
swallows a writable event — it is only marked as having received its first
event, with no other action and no change to the GC set or the deferred
list — while a socket past its first event is handled by the normal
per-event processing, which never performs the first-event marking. -/
theorem first_epoll_event_suppression (gc : GcList) (dq : List Socket)
    (s : Socket) (ev : EvFlags) (hclos : s.closable = true) :
    (s.needFirstEpollEvent = true → ev.epollout = true →
      processEvent gc dq (some s) ev =
        (gc, dq, some { s with needFirstEpollEvent := false },
          [Action.setFirstEpollEventReceived])) ∧
    (s.needFirstEpollEvent = false →
      processEvent gc dq (some s) ev = processEventBody gc dq s ev ∧
      Action.setFirstEpollEventReceived ∉
        (processEvent gc dq (some s) ev).2.2.2) := by
  constructor
  · intro hneed hout
    simp [processEvent, hclos, hneed, hout]
  · intro hneed
    have hbody := setFirst_not_in_processEventBody gc dq s ev
    constructor
    · simp [processEvent, hclos, hneed]
    · simpa [processEvent, hclos, hneed] using hbody

/-- A concrete closable socket awaiting its first epoll event. -/
def sFirst : Socket :=
  { nativeHandle := 4, state := SocketState.Connected, closable := true,
    needFirstEpollEvent := true, blocking := false, sockOptError := some 0,
    dispatchScript := [], hasCommand := false, hasExpiredCommand := false,
    endOfStream := false, deleteResult := none }

/-- Witness for `first_epoll_event_suppression` at a concrete socket and a
writable event. -/
theorem first_epoll_event_suppression_witness :
    sFirst.closable = true ∧
    ((sFirst.needFirstEpollEvent = true →
      EvFlags.epollout ⟨false, true, false, false, false⟩ = true →
      processEvent [] [] (some sFirst) ⟨false, true, false, false, false⟩ =
        ([], [], some { sFirst with needFirstEpollEvent := false },
          [Action.setFirstEpollEventReceived])) ∧
    (sFirst.needFirstEpollEvent = false →
      processEvent [] [] (some sFirst) ⟨false, true, false, false, false⟩ =
        processEventBody [] [] sFirst ⟨false, true, false, false, false⟩ ∧
      Action.setFirstEpollEventReceived ∉
        (processEvent [] [] (some sFirst)
          ⟨false, true, false, false, false⟩).2.2.2)) :=
  ⟨by decide,
    first_epoll_event_suppression [] [] sFirst
      ⟨false, true, false, false, false⟩ (by decide)⟩

/-- A non-blocking connecting socket whose pending connect resolves to a
failure (`SO_ERROR` = 111). -/
def sConnFail : Socket :=
  { nativeHandle := 3, state := SocketState.Connecting, closable := true,
    needFirstEpollEvent := false, blocking := false,
    sockOptError := some 111, dispatchScript := [], hasCommand := false,
    hasExpiredCommand := false, endOfStream := false, deleteResult := none }

/-- A writable event that simultaneously carries the hangup flag. -/
def evOutHup : EvFlags := ⟨false, true, false, true, false⟩

/-- Counterexample to claim C5 as stated: for this non-blocking socket
(state `Connecting`, which is not `Error`) a writable+hangup event attempts
no dispatch, but the hangup handling does not run either — the socket is
closed with `Closed` state (from the failed connect resolution), not
`Disconnected`, and end-of-stream is never marked. -/
theorem hangup_close_counterexample :
    sConnFail.blocking = false ∧
    sConnFail.state ≠ SocketState.Error ∧
    Action.dispatchEvents ∉
      (processEvent [] [] (some sConnFail) evOutHup).2.2.2 ∧
    Action.setEndOfStream ∉
      (processEvent [] [] (some sConnFail) evOutHup).2.2.2 ∧
    Action.closeWithState SocketState.Disconnected ∉
      (processEvent [] [] (some sConnFail) evOutHup).2.2.2 ∧
    Action.closeWithState SocketState.Closed ∈
      (processEvent [] [] (some sConnFail) evOutHup).2.2.2 := by
  decide

/-- Claim C5 (amended): for every non-blocking socket event carrying both
the writable and hangup flags that reaches normal event handling (socket
closable and past its first epoll event) and whose connect resolution does
not fail, no `DispatchEvents` call is attempted; and if the socket's state
is not `Error`, the hangup handling still marks end-of-stream and closes
the socket with `Disconnected` state. -/
theorem hangup_suppresses_dispatch_amended (gc : GcList) (dq : List Socket)
    (s : Socket) (ev : EvFlags)
    (hout : ev.epollout = true) (hhup : ev.epollhup = true)
    (hclos : s.closable = true) (hfirst : s.needFirstEpollEvent = false)
    (hblock : s.blocking = false)
    (hconn : s.state = SocketState.Connecting → s.sockOptError = some 0) :
    Action.dispatchEvents ∉ (processEvent gc dq (some s) ev).2.2.2 ∧
    (s.state ≠ SocketState.Error →
      Action.setEndOfStream ∈ (processEvent gc dq (some s) ev).2.2.2 ∧
      Action.closeWithState SocketState.Disconnected ∈
        (processEvent gc dq (some s) ev).2.2.2) := by
  have hred : processEvent gc dq (some s) ev = processEventBody gc dq s ev := by
    simp [processEvent, hclos, hfirst]
  rw [hred]
  have hc2 : connectResolution s ev = (false, []) ∨
      connectResolution s ev = (false, [Action.onConnected none]) := by
    by_cases hs : s.state = SocketState.Connecting
    · right
      simp [connectResolution, hout, hs, hconn hs]
    · left
      simp [connectResolution, hs]
  have hd : dispatchOnWritable gc s ev =
      (gc, s, false, SocketState.Closed, []) := by
    simp [dispatchOnWritable, hout, hhup]
  by_cases hserr : s.state = SocketState.Error
  · refine ⟨?_, fun hne => absurd hserr hne⟩
    rcases hc2 with hc | hc <;>
      by_cases hin : ev.epollin <;> by_cases herr : ev.epollerr <;>
        simp [processEventBody, hblock, hc, nonBlockingHandling, hd,
          hserr, hin, herr, closeHandling, hclos, List.mem_append]
  · have hnb : nonBlockingHandling gc s ev =
        (gc, { s with endOfStream := true }, true, SocketState.Disconnected,
          (if ev.epollin then [Action.onDataAvailable] else []) ++
            [Action.setEndOfStream]) := by
      simp [nonBlockingHandling, hd, hhup, hserr]
    rcases hc2 with hc | hc <;> by_cases hin : ev.epollin <;>
      simp [processEventBody, hblock, hc, hnb, closeHandling, hclos, hin,
        hserr, List.mem_append]

/-- A non-blocking connected socket past its first epoll event. -/
def sHang : Socket :=
  { nativeHandle := 6, state := SocketState.Connected, closable := true,
    needFirstEpollEvent := false, blocking := false, sockOptError := some 0,
    dispatchScript := [DispatchResult.Dispatched], hasCommand := false,
    hasExpiredCommand := false, endOfStream := false, deleteResult := none }

/-- Witness for `hangup_suppresses_dispatch_amended` at a concrete socket
and writable+hangup event. -/
theorem hangup_suppresses_dispatch_amended_witness :
    evOutHup.epollout = true ∧ evOutHup.epollhup = true ∧
    sHang.closable = true ∧ sHang.needFirstEpollEvent = false ∧
    sHang.blocking = false ∧
    (sHang.state = SocketState.Connecting → sHang.sockOptError = some 0) ∧
    (Action.dispatchEvents ∉
      (processEvent [] [] (some sHang) evOutHup).2.2.2 ∧
    (sHang.state ≠ SocketState.Error →
      Action.setEndOfStream ∈ (processEvent [] [] (some sHang) evOutHup).2.2.2 ∧
      Action.closeWithState SocketState.Disconnected ∈
        (processEvent [] [] (some sHang) evOutHup).2.2.2)) :=
  ⟨by decide, by decide, by decide, by decide, by decide, by decide,
    hangup_suppresses_dispatch_amended [] [] sHang evOutHup (by decide)
      (by decide) (by decide) (by decide) (by decide) (by decide)⟩

/-- A socket sitting in the GC-candidate set whose next dispatch fails. -/
def sGcErr : Socket :=
  { nativeHandle := 7, state := SocketState.Connected, closable := true,
    needFirstEpollEvent := false, blocking := false, sockOptError := some 0,
    dispatchScript := [DispatchResult.Error], hasCommand := true,
    hasExpiredCommand := false, endOfStream := false, deleteResult := none }

/-- Counterexample to claim C1 as stated: on the deferred-dispatch path a
dispatch result of `Error` closes the socket with `Error` state but does
not remove it from the GC-candidate set — starting from a set holding the
socket (as a previous partial dispatch leaves it), the entry survives. -/
theorem dispatch_gc_counterexample :
    Action.closeWithState SocketState.Error ∈
      (dispatchDeferredOne [(7, sGcErr)] sGcErr).2 ∧
    gcContains (dispatchDeferredOne [(7, sGcErr)] sGcErr).1 7 = true := by
  decide

/-- Claim C1 (amended): on the writable-event path (closable socket past
its first event, non-blocking, no hangup/error flags, connect resolution
not failing), `PartialDispatched` leaves the socket present in the
GC-candidate set keyed by its native handle, `Dispatched` leaves the GC set
unchanged (an entry from an earlier partial dispatch persists until garbage
collection), and `Error` erases the handle from the GC set and closes with
`Error` state; on the deferred-dispatch path `PartialDispatched` adds to
the GC set and `Dispatched` leaves it unchanged, while `Error` closes with
`Error` state but leaves the GC set unchanged. -/
theorem dispatch_gc_amended (gc : GcList) (dq : List Socket) (s : Socket)
    (ev : EvFlags) (gc2 : GcList) (s2 : Socket)
    (hout : ev.epollout = true) (hhup : ev.epollhup = false)
    (herr : ev.epollerr = false) (hrdhup : ev.epollrdhup = false)
    (hclos : s.closable = true) (hfirst : s.needFirstEpollEvent = false)
    (hblock : s.blocking = false)
    (hconn : (connectResolution s ev).1 = false) :
    (dispatchHead s =
        DispatchResult.PartialDispatched →
      gcContains (processEvent gc dq (some s) ev).1 s.nativeHandle = true) ∧
    (dispatchHead s =
        DispatchResult.Dispatched →
      (processEvent gc dq (some s) ev).1 = gc) ∧
    (dispatchHead s =
        DispatchResult.Error →
      gcContains (processEvent gc dq (some s) ev).1 s.nativeHandle = false ∧
      Action.closeWithState SocketState.Error ∈
        (processEvent gc dq (some s) ev).2.2.2) ∧
    (dispatchHead s2 =
        DispatchResult.PartialDispatched →
      gcContains (dispatchDeferredOne gc2 s2).1 s2.nativeHandle = true) ∧
    (dispatchHead s2 =
        DispatchResult.Dispatched →
      (dispatchDeferredOne gc2 s2).1 = gc2) ∧
    (dispatchHead s2 =
        DispatchResult.Error →
      (dispatchDeferredOne gc2 s2).1 = gc2 ∧
      Action.closeWithState SocketState.Error ∈
        (dispatchDeferredOne gc2 s2).2) := by
  have hred : processEvent gc dq (some s) ev = processEventBody gc dq s ev := by
    simp [processEvent, hclos, hfirst]
  refine ⟨fun hr => ?_, fun hr => ?_, fun hr => ?_,
    fun hr2 => ?_, fun hr2 => ?_, fun hr2 => ?_⟩
  · rw [hred]
    simp [processEventBody, hblock, hconn, nonBlockingHandling,
      dispatchOnWritable, hout, hhup, herr, hrdhup, hr, closeHandling,
      gcContains_gcInsert_self]
  · rw [hred]
    simp [processEventBody, hblock, hconn, nonBlockingHandling,
      dispatchOnWritable, hout, hhup, herr, hrdhup, hr, closeHandling]
  · rw [hred]
    constructor
    · simp [processEventBody, hblock, hconn, nonBlockingHandling,
        dispatchOnWritable, hout, hhup, herr, hrdhup, hr, closeHandling,
        gcContains_gcErase_self]
    · by_cases hin : ev.epollin <;>
        simp [processEventBody, hblock, hconn, nonBlockingHandling,
          dispatchOnWritable, hout, hhup, herr, hrdhup, hr, hin,
          closeHandling, hclos, List.mem_append]
  · simp [dispatchDeferredOne, hr2, gcContains_gcInsert_self]
  · simp [dispatchDeferredOne, hr2]
  · simp [dispatchDeferredOne, hr2]

/-- A socket whose next dispatch is partial. -/
def sPart : Socket :=
  { nativeHandle := 9, state := SocketState.Connected, closable := true,
    needFirstEpollEvent := false, blocking := false, sockOptError := some 0,
    dispatchScript := [DispatchResult.PartialDispatched], hasCommand := true,
    hasExpiredCommand := false, endOfStream := false, deleteResult := none }

/-- A plain writable event. -/
def evOut : EvFlags := ⟨false, true, false, false, false⟩

/-- Witness for `dispatch_gc_amended` at concrete sockets and a writable
event. -/
theorem dispatch_gc_amended_witness :
    evOut.epollout = true ∧ evOut.epollhup = false ∧
    evOut.epollerr = false ∧ evOut.epollrdhup = false ∧
    sPart.closable = true ∧ sPart.needFirstEpollEvent = false ∧
    sPart.blocking = false ∧ (connectResolution sPart evOut).1 = false ∧
    ((dispatchHead sPart =
        DispatchResult.PartialDispatched →
      gcContains (processEvent [] [] (some sPart) evOut).1
        sPart.nativeHandle = true) ∧
    (dispatchHead sPart =
        DispatchResult.Dispatched →
      (processEvent [] [] (some sPart) evOut).1 = []) ∧
    (dispatchHead sPart =
        DispatchResult.Error →
      gcContains (processEvent [] [] (some sPart) evOut).1
        sPart.nativeHandle = false ∧
      Action.closeWithState SocketState.Error ∈
        (processEvent [] [] (some sPart) evOut).2.2.2) ∧
    (dispatchHead sGcErr =
        DispatchResult.PartialDispatched →
      gcContains (dispatchDeferredOne [] sGcErr).1
        sGcErr.nativeHandle = true) ∧
    (dispatchHead sGcErr =
        DispatchResult.Dispatched →
      (dispatchDeferredOne [] sGcErr).1 = []) ∧
    (dispatchHead sGcErr =
        DispatchResult.Error →
      (dispatchDeferredOne [] sGcErr).1 = [] ∧
      Action.closeWithState SocketState.Error ∈
        (dispatchDeferredOne [] sGcErr).2)) :=
  ⟨by decide, by decide, by decide, by decide, by decide, by decide,
    by decide, by decide,
    dispatch_gc_amended [] [] sPart evOut [] sGcErr (by decide) (by decide)
      (by decide) (by decide) (by decide) (by decide) (by decide)
      (by decide)⟩

theorem traceCount_append (t1 t2 : List (Nat × Action)) (h : Nat)
    (a : Action) :
    traceCount (t1 ++ t2) h a = traceCount t1 h a + traceCount t2 h a := by
  simp [traceCount, List.filter_append]

theorem mapContains_eq_false_of_all_ne (m : SockMap) (h : Nat)
    (hall : m.all (fun p => p.1 ≠ h) = true) : mapContains m h = false := by
  induction m with
  | nil => rfl
  | cons p rest ih =>
    simp only [List.all_cons, Bool.and_eq_true] at hall
    simp only [mapContains] at ih ⊢
    simp only [List.any_cons, Bool.or_eq_false_iff]
    refine ⟨?_, ih hall.2⟩
    simpa using hall.1

theorem cleanupTrace_count_absent (m : SockMap) (h : Nat) (a : Action)
    (habs : mapContains m h = false) :
    traceCount (cleanupTrace m) h a = 0 := by
  induction m with
  | nil => rfl
  | cons p rest ih =>
    obtain ⟨k, v⟩ := p
    simp only [mapContains, List.any_cons, Bool.or_eq_false_iff,
      decide_eq_false_iff_not] at habs
    simp only [mapContains] at ih
    have hrest := ih habs.2
    simp only [cleanupTrace, traceCount_append, hrest, Nat.add_zero]
    rcases v with _ | s0
    · rfl
    · by_cases hc : s0.closable = true <;>
        simp [hc, traceCount, habs.1]

theorem cleanupTrace_counts (m : SockMap) (h : Nat) (s : Socket)
    (hnodup : mapKeysNodup m = true)
    (hfind : mapFind m h = some (some s)) (hclos : s.closable = true) :
    traceCount (cleanupTrace m) h Action.closeInternal = 1 ∧
    traceCount (cleanupTrace m) h Action.dispatchEvents = 1 := by
  induction m with
  | nil => cases hfind
  | cons p rest ih =>
    obtain ⟨k, v⟩ := p
    simp only [mapKeysNodup, Bool.and_eq_true] at hnodup
    by_cases hk : k = h
    · subst hk
      simp [mapFind] at hfind
      subst hfind
      have habs : mapContains rest k = false :=
        mapContains_eq_false_of_all_ne rest k hnodup.1
      have h1 := cleanupTrace_count_absent rest k Action.closeInternal habs
      have h2 := cleanupTrace_count_absent rest k Action.dispatchEvents habs
      have hsplit : cleanupTrace ((k, some s) :: rest) =
          [(k, Action.closeInternal),
            (k, Action.setState SocketState.Closed),
            (k, Action.dispatchEvents)] ++ cleanupTrace rest := by
        simp [cleanupTrace, hclos]
      constructor
      · rw [hsplit, traceCount_append, h1]
        simp [traceCount]
      · rw [hsplit, traceCount_append, h2]
        simp [traceCount]
    · simp only [mapFind, if_neg hk] at hfind
      have hr := ih hnodup.2 hfind
      rcases v with _ | s0
      · simpa [cleanupTrace, traceCount_append] using hr
      · by_cases hc : s0.closable = true <;>
          simp only [cleanupTrace, traceCount_append, hc, if_pos, if_neg,
            if_true, if_false] <;>
          simpa [traceCount, hk] using hr

/-- Claim C4: `UninitializeWorker` on a non-initialized worker returns false with
no effect; on an initialized worker it returns true after the joined thread
has given every closable socket still in the handle map exactly one forced
close (`CloseInternal`) and exactly one `DispatchEvents`, and it leaves the
handle map, the insert queue, the delete queue, the deferred-dispatch list,
the connection-timeout queue and the GC-candidate set all empty. -/
theorem uninitialize_drains_everything (w : Worker) (hn : Nat) (s : Socket)
    (hnodup : mapKeysNodup w.socket_map = true)
    (hfind : mapFind w.socket_map hn = some (some s))
    (hclos : s.closable = true) :
    (w.nativeHandle = InvalidSocket → UninitializeWorker w = (false, w, [])) ∧
    (w.nativeHandle ≠ InvalidSocket →
      (UninitializeWorker w).1 = true ∧
      ((UninitializeWorker w).2.1).socket_map = [] ∧
      ((UninitializeWorker w).2.1).sockets_to_insert = [] ∧
      ((UninitializeWorker w).2.1).sockets_to_delete = [] ∧
      ((UninitializeWorker w).2.1).sockets_to_dispatch = [] ∧
      ((UninitializeWorker w).2.1).connection_timed_out_queue = [] ∧
      ((UninitializeWorker w).2.1).gc_candidates = [] ∧
      traceCount (UninitializeWorker w).2.2 hn Action.closeInternal = 1 ∧
      traceCount (UninitializeWorker w).2.2 hn Action.dispatchEvents = 1) := by
  have hcnt := cleanupTrace_counts w.socket_map hn s hnodup hfind hclos
  constructor
  · intro hinv
    simp [UninitializeWorker, hinv]
  · intro hinit
    simp [UninitializeWorker, hinit, hcnt.1, hcnt.2]

/-- A concrete closable connected socket registered in a handle map. -/
def sMap : Socket :=
  { nativeHandle := 12, state := SocketState.Connected, closable := true,
    needFirstEpollEvent := false, blocking := false, sockOptError := some 0,
    dispatchScript := [], hasCommand := false, hasExpiredCommand := false,
    endOfStream := false, deleteResult := none }

/-- A concrete initialized worker whose handle map holds `sMap`. -/
def wMap : Worker :=
  { nativeHandle := 3, socket_map := [(12, some sMap)],
    sockets_to_insert := [], sockets_to_delete := [],
    sockets_to_dispatch := [], connection_timed_out_queue := [],
    gc_candidates := [], socket_count := 1 }

/-- Witness for `uninitialize_drains_everything` at a concrete worker. -/
theorem uninitialize_drains_everything_witness :
    mapKeysNodup wMap.socket_map = true ∧
    mapFind wMap.socket_map 12 = some (some sMap) ∧
    sMap.closable = true ∧
    ((wMap.nativeHandle = InvalidSocket →
      UninitializeWorker wMap = (false, wMap, [])) ∧
    (wMap.nativeHandle ≠ InvalidSocket →
      (UninitializeWorker wMap).1 = true ∧
      ((UninitializeWorker wMap).2.1).socket_map = [] ∧
      ((UninitializeWorker wMap).2.1).sockets_to_insert = [] ∧
      ((UninitializeWorker wMap).2.1).sockets_to_delete = [] ∧
      ((UninitializeWorker wMap).2.1).sockets_to_dispatch = [] ∧
      ((UninitializeWorker wMap).2.1).connection_timed_out_queue = [] ∧
      ((UninitializeWorker wMap).2.1).gc_candidates = [] ∧
      traceCount (UninitializeWorker wMap).2.2 12 Action.closeInternal = 1 ∧
      traceCount (UninitializeWorker wMap).2.2 12 Action.dispatchEvents = 1)) :=
  ⟨by decide, by decide, by decide,
    uninitialize_drains_everything wMap 12 sMap (by decide) (by decide)
      (by decide)⟩

theorem traceCount_cons_ne (k : Nat) (x : Action) (tr : List (Nat × Action))
    (h : Nat) (a : Action) (hk : k ≠ h) :
    traceCount ((k, x) :: tr) h a = traceCount tr h a := by
  simp [traceCount, hk]

theorem traceCount_cons_self (tr : List (Nat × Action)) (h : Nat)
    (a : Action) :
    traceCount ((h, a) :: tr) h a = traceCount tr h a + 1 := by
  simp [traceCount]

theorem traceCount_cons_act_ne (tr : List (Nat × Action)) (h : Nat)
    (a b : Action) (hab : b ≠ a) :
    traceCount ((h, b) :: tr) h a = traceCount tr h a := by
  simp [traceCount, hab]

theorem gcContains_eq_false_of_all_ne (gc : GcList) (h : Nat)
    (hall : gc.all (fun p => p.1 ≠ h) = true) : gcContains gc h = false := by
  induction gc with
  | nil => rfl
  | cons p rest ih =>
    simp only [List.all_cons, Bool.and_eq_true] at hall
    simp only [gcContains] at ih ⊢
    simp only [List.any_cons, Bool.or_eq_false_iff]
    refine ⟨?_, ih hall.2⟩
    simpa using hall.1


theorem gcLoop_eq_expired (k : Nat) (s0 : Socket) (rest : GcList)
    (he : s0.hasExpiredCommand = true) :
    gcLoop ((k, s0) :: rest) =
      ((gcLoop rest).1,
        (if s0.deleteResult = none then [s0] else []) ++ (gcLoop rest).2.1,
        (k, Action.closeInternal) :: (k, Action.dispatchEvents) ::
          (k, Action.deleteFromEpoll) :: (gcLoop rest).2.2) := by
  simp [gcLoop, he]

theorem gcLoop_eq_drop (k : Nat) (s0 : Socket) (rest : GcList)
    (he : s0.hasExpiredCommand = false) (hc : s0.hasCommand = false) :
    gcLoop ((k, s0) :: rest) = gcLoop rest := by
  simp [gcLoop, he, hc]

theorem gcLoop_eq_keep (k : Nat) (s0 : Socket) (rest : GcList)
    (he : s0.hasExpiredCommand = false) (hc : s0.hasCommand = true) :
    gcLoop ((k, s0) :: rest) =
      ((k, s0) :: (gcLoop rest).1, (gcLoop rest).2.1, (gcLoop rest).2.2) := by
  simp [gcLoop, he, hc]

theorem gcContains_cons_ne (k : Nat) (s0 : Socket) (rest : GcList) (h : Nat)
    (hk : k ≠ h) : gcContains ((k, s0) :: rest) h = gcContains rest h := by
  simp [gcContains, hk]

theorem gcLoop_absent (m : GcList) (h : Nat) (a : Action)
    (habs : gcContains m h = false) :
    gcContains (gcLoop m).1 h = false ∧
    traceCount (gcLoop m).2.2 h a = 0 := by
  induction m with
  | nil => exact ⟨rfl, rfl⟩
  | cons p rest ih =>
    obtain ⟨k, s0⟩ := p
    have hk : k ≠ h := by
      intro hkh
      rw [← hkh] at habs
      simp [gcContains] at habs
    have habs2 : gcContains rest h = false := by
      simp only [gcContains, List.any_cons, Bool.or_eq_false_iff] at habs
      exact habs.2
    have hr := ih habs2
    by_cases he : s0.hasExpiredCommand = true
    · rw [gcLoop_eq_expired k s0 rest he]
      refine ⟨hr.1, ?_⟩
      rw [traceCount_cons_ne _ _ _ _ _ hk, traceCount_cons_ne _ _ _ _ _ hk,
        traceCount_cons_ne _ _ _ _ _ hk]
      exact hr.2
    · rw [Bool.not_eq_true] at he
      by_cases hc : s0.hasCommand = true
      · rw [gcLoop_eq_keep k s0 rest he hc]
        exact ⟨by rw [gcContains_cons_ne _ _ _ _ hk]; exact hr.1, hr.2⟩
      · rw [Bool.not_eq_true] at hc
        rw [gcLoop_eq_drop k s0 rest he hc]
        exact hr

theorem gcLoop_spec (m : GcList) (h : Nat) (s : Socket)
    (hnodup : gcKeysNodup m = true) (hfind : gcFind m h = some s) :
    (s.hasExpiredCommand = true →
      gcContains (gcLoop m).1 h = false ∧
      traceCount (gcLoop m).2.2 h Action.closeInternal = 1 ∧
      traceCount (gcLoop m).2.2 h Action.dispatchEvents = 1 ∧
      traceCount (gcLoop m).2.2 h Action.deleteFromEpoll = 1) ∧
    (s.hasExpiredCommand = false → s.hasCommand = false →
      gcContains (gcLoop m).1 h = false ∧
      traceCount (gcLoop m).2.2 h Action.closeInternal = 0) ∧
    (s.hasExpiredCommand = false → s.hasCommand = true →
      gcFind (gcLoop m).1 h = some s) := by
  induction m with
  | nil => cases hfind
  | cons p rest ih =>
    obtain ⟨k, s0⟩ := p
    simp only [gcKeysNodup, Bool.and_eq_true] at hnodup
    by_cases hk : k = h
    · subst hk
      simp [gcFind] at hfind
      subst hfind
      have habs : gcContains rest k = false :=
        gcContains_eq_false_of_all_ne rest k hnodup.1
      have ha1 := gcLoop_absent rest k Action.closeInternal habs
      have ha2 := gcLoop_absent rest k Action.dispatchEvents habs
      have ha3 := gcLoop_absent rest k Action.deleteFromEpoll habs
      refine ⟨fun he => ?_, fun he hc => ?_, fun he hc => ?_⟩
      · rw [gcLoop_eq_expired k s0 rest he]
        refine ⟨ha1.1, ?_, ?_, ?_⟩
        · rw [traceCount_cons_self,
            traceCount_cons_act_ne _ _ _ _ (by decide),
            traceCount_cons_act_ne _ _ _ _ (by decide), ha1.2]
        · rw [traceCount_cons_act_ne _ _ _ _ (by decide),
            traceCount_cons_self,
            traceCount_cons_act_ne _ _ _ _ (by decide), ha2.2]
        · rw [traceCount_cons_act_ne _ _ _ _ (by decide),
            traceCount_cons_act_ne _ _ _ _ (by decide),
            traceCount_cons_self, ha3.2]
      · rw [gcLoop_eq_drop k s0 rest he hc]
        exact ⟨ha1.1, ha1.2⟩
      · rw [gcLoop_eq_keep k s0 rest he hc]
        simp [gcFind]
    · simp only [gcFind, if_neg hk] at hfind
      have ihr := ih hnodup.2 hfind
      have hk2 : k ≠ h := hk
      by_cases he0 : s0.hasExpiredCommand = true
      · refine ⟨fun he => ?_, fun he hc => ?_, fun he hc => ?_⟩
        · obtain ⟨g1, c1, c2, c3⟩ := ihr.1 he
          rw [gcLoop_eq_expired k s0 rest he0]
          refine ⟨g1, ?_, ?_, ?_⟩
          · rw [traceCount_cons_ne _ _ _ _ _ hk2,
              traceCount_cons_ne _ _ _ _ _ hk2,
              traceCount_cons_ne _ _ _ _ _ hk2]
            exact c1
          · rw [traceCount_cons_ne _ _ _ _ _ hk2,
              traceCount_cons_ne _ _ _ _ _ hk2,
              traceCount_cons_ne _ _ _ _ _ hk2]
            exact c2
          · rw [traceCount_cons_ne _ _ _ _ _ hk2,
              traceCount_cons_ne _ _ _ _ _ hk2,
              traceCount_cons_ne _ _ _ _ _ hk2]
            exact c3
        · obtain ⟨g1, c1⟩ := ihr.2.1 he hc
          rw [gcLoop_eq_expired k s0 rest he0]
          refine ⟨g1, ?_⟩
          rw [traceCount_cons_ne _ _ _ _ _ hk2,
            traceCount_cons_ne _ _ _ _ _ hk2,
            traceCount_cons_ne _ _ _ _ _ hk2]
          exact c1
        · rw [gcLoop_eq_expired k s0 rest he0]
          exact ihr.2.2 he hc
      · rw [Bool.not_eq_true] at he0
        by_cases hc0 : s0.hasCommand = true
        · refine ⟨fun he => ?_, fun he hc => ?_, fun he hc => ?_⟩
          · obtain ⟨g1, c1, c2, c3⟩ := ihr.1 he
            rw [gcLoop_eq_keep k s0 rest he0 hc0]
            exact ⟨by rw [gcContains_cons_ne _ _ _ _ hk2]; exact g1,
              c1, c2, c3⟩
          · obtain ⟨g1, c1⟩ := ihr.2.1 he hc
            rw [gcLoop_eq_keep k s0 rest he0 hc0]
            exact ⟨by rw [gcContains_cons_ne _ _ _ _ hk2]; exact g1, c1⟩
          · rw [gcLoop_eq_keep k s0 rest he0 hc0]
            simp only [gcFind, if_neg hk]
            exact ihr.2.2 he hc
        · rw [Bool.not_eq_true] at hc0
          refine ⟨fun he => ?_, fun he hc => ?_, fun he hc => ?_⟩
          · rw [gcLoop_eq_drop k s0 rest he0 hc0]
            exact ihr.1 he
          · rw [gcLoop_eq_drop k s0 rest he0 hc0]
            exact ihr.2.1 he hc
          · rw [gcLoop_eq_drop k s0 rest he0 hc0]
            exact ihr.2.2 he hc

/-- Claim C6: at a garbage-collection pass, a GC candidate with an expired
command is force-closed (`CloseInternal`), given one final
`DispatchEvents`, deregistered from the backend (`DeleteFromEpoll`) and
removed from the GC set, each exactly once; a candidate with no pending
command is removed from the set without any close; any other candidate
stays in the set unchanged. -/
theorem garbage_collection_per_candidate (w : Worker) (h : Nat) (s : Socket)
    (hnodup : gcKeysNodup w.gc_candidates = true)
    (hfind : gcFind w.gc_candidates h = some s) :
    (s.hasExpiredCommand = true →
      gcContains ((GarbageCollection w).1).gc_candidates h = false ∧
      traceCount (GarbageCollection w).2 h Action.closeInternal = 1 ∧
      traceCount (GarbageCollection w).2 h Action.dispatchEvents = 1 ∧
      traceCount (GarbageCollection w).2 h Action.deleteFromEpoll = 1) ∧
    (s.hasExpiredCommand = false → s.hasCommand = false →
      gcContains ((GarbageCollection w).1).gc_candidates h = false ∧
      traceCount (GarbageCollection w).2 h Action.closeInternal = 0) ∧
    (s.hasExpiredCommand = false → s.hasCommand = true →
      gcFind ((GarbageCollection w).1).gc_candidates h = some s) := by
  have hs := gcLoop_spec w.gc_candidates h s hnodup hfind
  simpa [GarbageCollection] using hs

/-- A concrete GC candidate with an expired command. -/
def sExp : Socket :=
  { nativeHandle := 14, state := SocketState.Connected, closable := true,
    needFirstEpollEvent := false, blocking := false, sockOptError := some 0,
    dispatchScript := [DispatchResult.Dispatched], hasCommand := true,
    hasExpiredCommand := true, endOfStream := false, deleteResult := none }

/-- A concrete worker whose GC-candidate set holds `sExp`. -/
def wGc : Worker :=
  { nativeHandle := 3, socket_map := [(14, some sExp)],
    sockets_to_insert := [], sockets_to_delete := [],
    sockets_to_dispatch := [], connection_timed_out_queue := [],
    gc_candidates := [(14, sExp)], socket_count := 1 }

/-- Witness for `garbage_collection_per_candidate` at a concrete worker. -/
theorem garbage_collection_per_candidate_witness :
    gcKeysNodup wGc.gc_candidates = true ∧
    gcFind wGc.gc_candidates 14 = some sExp ∧
    ((sExp.hasExpiredCommand = true →
      gcContains ((GarbageCollection wGc).1).gc_candidates 14 = false ∧
      traceCount (GarbageCollection wGc).2 14 Action.closeInternal = 1 ∧
      traceCount (GarbageCollection wGc).2 14 Action.dispatchEvents = 1 ∧
      traceCount (GarbageCollection wGc).2 14 Action.deleteFromEpoll = 1) ∧
    (sExp.hasExpiredCommand = false → sExp.hasCommand = false →
      gcContains ((GarbageCollection wGc).1).gc_candidates 14 = false ∧
      traceCount (GarbageCollection wGc).2 14 Action.closeInternal = 0) ∧
    (sExp.hasExpiredCommand = false → sExp.hasCommand = true →
      gcFind ((GarbageCollection wGc).1).gc_candidates 14 = some sExp)) :=
  ⟨by decide, by decide,
    garbage_collection_per_candidate wGc 14 sExp (by decide) (by decide)⟩

end OvSocket
